import Mathlib

/-!
Verification of the training/validation orchestration engine of
task_train.py (super-resolution training driver).

Modelling conventions, used throughout:
* Python strings are modelled as lists of characters (abbrev Str), so that
  all string operations are structurally recursive and kernel-computable.
* Real-valued tensors are modelled as lists of rational numbers; a batch
  (the tuple a dataset yields per iteration) is a list of tensors, and a
  distributed batch carries one such tuple per replica.
* The TensorFlow distribution runtime is modelled by the StrategyE type:
  OneDeviceStrategy runs the step function once and returns its value
  directly, MirroredStrategy runs it once per replica and returns a
  per-replica collection; a synchronized apply_gradients sums the
  per-replica gradients and performs a single shared update, incrementing
  the shared iteration counter once (this is the documented behaviour the
  NOTE block above build_strategic_training_model relies on).
* External collaborators (os.path expansion, PSNR/SSIM, the model forward
  pass and its gradients, the optimizer update rule) are abstract function
  parameters: the engine is verified for every instantiation of them.
-/

/-- Python strings, as character lists. -/
abbrev Str := List Char

deriving instance DecidableEq for Except

/-- Lexicographic less-or-equal on strings by code points, the order used
by the Python builtin sorted. -/
def lexLe : Str → Str → Bool
  | [], _ => true
  | _ :: _, [] => false
  | a :: as, b :: bs => a < b || (a == b && lexLe as bs)

/-- Insert a string into a list so that an already lexLe-sorted list stays
sorted. -/
def insertLe (a : Str) : List Str → List Str
  | [] => [a]
  | b :: bs => if lexLe a b then a :: b :: bs else b :: insertLe a bs

/-- Ascending lexicographic sort, the behaviour of the Python builtin
sorted on a list of strings. -/
def sortL (l : List Str) : List Str := l.foldr insertLe []

/-- Lookup in an association list (a Python dictionary read with a
default). -/
def lookupD {α : Type} (l : List (Str × α)) (k : Str) (d : α) : α :=
  match l with
  | [] => d
  | p :: rest => if p.1 == k then p.2 else lookupD rest k d

/-- Update an association list at a key (a Python dictionary assignment):
replace the first binding of the key, or append a new binding. -/
def setA {α : Type} (l : List (Str × α)) (k : Str) (v : α) : List (Str × α) :=
  match l with
  | [] => [(k, v)]
  | p :: rest => if p.1 == k then (k, v) :: rest else p :: setA rest k v

theorem lookupD_setA_self {α : Type} (l : List (Str × α)) (k : Str) (v : α) (d : α) :
    lookupD (setA l k v) k d = v := by
  induction l with
  | nil => simp [setA, lookupD]
  | cons p rest ih =>
    by_cases h : p.1 == k
    · simp [setA, h, lookupD]
    · simp [setA, h, lookupD, ih]

theorem lookupD_setA_ne {α : Type} (l : List (Str × α)) (k k2 : Str) (v : α) (d : α)
    (h : k ≠ k2) : lookupD (setA l k v) k2 d = lookupD l k2 d := by
  induction l with
  | nil => simp [setA, lookupD, h]
  | cons p rest ih =>
    by_cases hp : p.1 == k
    · have hpk : p.1 = k := by simpa using hp
      simp [setA, hp, lookupD, hpk, h]
    · simp [setA, hp, lookupD, ih]

/-- The literal placeholder token substituted by resolve_strings. -/
def placeholder : Str := "\x7bexperiment_name\x7d".toList

/-- Python str.replace for a nonempty pattern, written with explicit fuel
(one unit per character of the subject) so that it is structurally
recursive; replaces every non-overlapping occurrence left to right. -/
def pyReplaceFuel (pat rep : Str) : Nat → Str → Str
  | 0, s => s
  | _ + 1, [] => []
  | fuel + 1, c :: rest =>
    if pat.isPrefixOf (c :: rest) then
      rep ++ pyReplaceFuel pat rep fuel ((c :: rest).drop pat.length)
    else
      c :: pyReplaceFuel pat rep fuel rest

/-- Python str.replace(pat, rep). The source only ever calls it with the
nonempty placeholder pattern; the empty-pattern case is returned
unchanged. -/
def pyReplace (s pat rep : Str) : Str :=
  if pat.isEmpty then s else pyReplaceFuel pat rep s.length s

/-- Substring test: Python membership k1 in k2 for strings. -/
def strContains (s sub : Str) : Bool :=
  (List.range (s.length + 1)).any (fun i => sub.isPrefixOf (s.drop i))

/-- pathlib.PurePath(val).is_absolute() on a POSIX system. -/
def isAbsolutePath (s : Str) : Bool :=
  match s with
  | [] => false
  | c :: _ => c == '/'

/-- The path normalization branch of resolve_strings for a value stored
under a path-like key: keep an absolute path, expand a leading tilde with
the user home directory (pathlib expanduser, the abstract function eu),
otherwise resolve against the current working directory (pathlib resolve,
the abstract function rz). -/
def normalizePath (eu rz : Str → Str) (val : Str) : Str :=
  if isAbsolutePath val then val
  else if val.head? == some '~' then eu val
  else rz val

/-- Nested Python values as parsed from the experiment yaml: strings,
scalar (non-string, non-container) leaves, lists and dictionaries.
Dictionary keys in the experiment descriptor are strings. -/
inductive PyVal where
  | str (s : Str)
  | num (n : Int)
  | list (xs : List PyVal)
  | dict (kvs : List (Str × PyVal))

mutual

/-- resolve_strings iterating a Python list: list positions are integer
keys, so the path normalization branch (guarded by isinstance(key, str))
never applies; containers recurse, strings get the placeholder replaced,
other leaves are untouched. -/
def resolveList (eu rz : Str → Str) (en : Str) : List PyVal → List PyVal
  | [] => []
  | PyVal.list xs :: rest =>
    PyVal.list (resolveList eu rz en xs) :: resolveList eu rz en rest
  | PyVal.dict kvs :: rest =>
    PyVal.dict (resolveDict eu rz en kvs) :: resolveList eu rz en rest
  | PyVal.str s :: rest =>
    PyVal.str (pyReplace s placeholder en) :: resolveList eu rz en rest
  | PyVal.num n :: rest => PyVal.num n :: resolveList eu rz en rest

/-- resolve_strings iterating a Python dictionary: keys are never changed;
containers recurse; a string value gets the placeholder replaced and, when
the key contains the substring "path", is then path-normalized; other
leaves are untouched. -/
def resolveDict (eu rz : Str → Str) (en : Str) : List (Str × PyVal) → List (Str × PyVal)
  | [] => []
  | (k, PyVal.list xs) :: rest =>
    (k, PyVal.list (resolveList eu rz en xs)) :: resolveDict eu rz en rest
  | (k, PyVal.dict kvs) :: rest =>
    (k, PyVal.dict (resolveDict eu rz en kvs)) :: resolveDict eu rz en rest
  | (k, PyVal.str s) :: rest =>
    (k, PyVal.str
      (if strContains k "path".toList then
        normalizePath eu rz (pyReplace s placeholder en)
      else pyReplace s placeholder en)) :: resolveDict eu rz en rest
  | (k, PyVal.num n) :: rest => (k, PyVal.num n) :: resolveDict eu rz en rest

end

/-- resolve_strings(data, experiment_name): the source expects data to be
a list or a dictionary; a bare scalar is returned unchanged. -/
def resolve_strings (eu rz : Str → Str) (en : Str) : PyVal → PyVal
  | PyVal.list xs => PyVal.list (resolveList eu rz en xs)
  | PyVal.dict kvs => PyVal.dict (resolveDict eu rz en kvs)
  | v => v

mutual

/-- Modelled from the spec: the substitution pass alone, on a list — every
string value, at any depth, has the placeholder replaced by the
experiment name; keys and other leaves untouched. -/
def substList (en : Str) : List PyVal → List PyVal
  | [] => []
  | PyVal.list xs :: rest => PyVal.list (substList en xs) :: substList en rest
  | PyVal.dict kvs :: rest => PyVal.dict (substDict en kvs) :: substList en rest
  | PyVal.str s :: rest => PyVal.str (pyReplace s placeholder en) :: substList en rest
  | PyVal.num n :: rest => PyVal.num n :: substList en rest

/-- Modelled from the spec: the substitution pass alone, on a
dictionary. -/
def substDict (en : Str) : List (Str × PyVal) → List (Str × PyVal)
  | [] => []
  | (k, PyVal.list xs) :: rest => (k, PyVal.list (substList en xs)) :: substDict en rest
  | (k, PyVal.dict kvs) :: rest => (k, PyVal.dict (substDict en kvs)) :: substDict en rest
  | (k, PyVal.str s) :: rest => (k, PyVal.str (pyReplace s placeholder en)) :: substDict en rest
  | (k, PyVal.num n) :: rest => (k, PyVal.num n) :: substDict en rest

end

mutual

/-- Modelled from the spec: the path-normalization pass alone, on a list —
list positions are not string keys, so nothing at list level is
normalized; containers recurse. -/
def normList (eu rz : Str → Str) : List PyVal → List PyVal
  | [] => []
  | PyVal.list xs :: rest => PyVal.list (normList eu rz xs) :: normList eu rz rest
  | PyVal.dict kvs :: rest => PyVal.dict (normDict eu rz kvs) :: normList eu rz rest
  | PyVal.str s :: rest => PyVal.str s :: normList eu rz rest
  | PyVal.num n :: rest => PyVal.num n :: normList eu rz rest

/-- Modelled from the spec: the path-normalization pass alone, on a
dictionary — a string value under a key containing "path" is normalized,
everything else kept. -/
def normDict (eu rz : Str → Str) : List (Str × PyVal) → List (Str × PyVal)
  | [] => []
  | (k, PyVal.list xs) :: rest => (k, PyVal.list (normList eu rz xs)) :: normDict eu rz rest
  | (k, PyVal.dict kvs) :: rest => (k, PyVal.dict (normDict eu rz kvs)) :: normDict eu rz rest
  | (k, PyVal.str s) :: rest =>
    (k, PyVal.str (if strContains k "path".toList then normalizePath eu rz s else s))
      :: normDict eu rz rest
  | (k, PyVal.num n) :: rest => (k, PyVal.num n) :: normDict eu rz rest

end

/-- Modelled from the spec: resolve a nested structure by substituting the
experiment name everywhere and then normalizing every string value stored
under a path-like dictionary key. -/
def specResolve (eu rz : Str → Str) (en : Str) : PyVal → PyVal
  | PyVal.list xs => PyVal.list (normList eu rz (substList en xs))
  | PyVal.dict kvs => PyVal.dict (normDict eu rz (substDict en kvs))
  | v => v

mutual

theorem resolveList_eq_spec (eu rz : Str → Str) (en : Str) :
    ∀ xs : List PyVal, resolveList eu rz en xs = normList eu rz (substList en xs)
  | [] => by simp [resolveList, substList, normList]
  | PyVal.list ys :: rest => by
    simp [resolveList, substList, normList,
      resolveList_eq_spec eu rz en ys, resolveList_eq_spec eu rz en rest]
  | PyVal.dict kvs :: rest => by
    simp [resolveList, substList, normList,
      resolveDict_eq_spec eu rz en kvs, resolveList_eq_spec eu rz en rest]
  | PyVal.str s :: rest => by
    simp [resolveList, substList, normList, resolveList_eq_spec eu rz en rest]
  | PyVal.num n :: rest => by
    simp [resolveList, substList, normList, resolveList_eq_spec eu rz en rest]

theorem resolveDict_eq_spec (eu rz : Str → Str) (en : Str) :
    ∀ kvs : List (Str × PyVal), resolveDict eu rz en kvs = normDict eu rz (substDict en kvs)
  | [] => by simp [resolveDict, substDict, normDict]
  | (k, PyVal.list ys) :: rest => by
    simp [resolveDict, substDict, normDict,
      resolveList_eq_spec eu rz en ys, resolveDict_eq_spec eu rz en rest]
  | (k, PyVal.dict kvs2) :: rest => by
    simp [resolveDict, substDict, normDict,
      resolveDict_eq_spec eu rz en kvs2, resolveDict_eq_spec eu rz en rest]
  | (k, PyVal.str s) :: rest => by
    simp [resolveDict, substDict, normDict, resolveDict_eq_spec eu rz en rest]
  | (k, PyVal.num n) :: rest => by
    simp [resolveDict, substDict, normDict, resolveDict_eq_spec eu rz en rest]

end

theorem resolveDict_keys (eu rz : Str → Str) (en : Str) :
    ∀ kvs : List (Str × PyVal), (resolveDict eu rz en kvs).map Prod.fst = kvs.map Prod.fst
  | [] => by simp [resolveDict]
  | (k, PyVal.list ys) :: rest => by simp [resolveDict, resolveDict_keys eu rz en rest]
  | (k, PyVal.dict kvs2) :: rest => by simp [resolveDict, resolveDict_keys eu rz en rest]
  | (k, PyVal.str s) :: rest => by simp [resolveDict, resolveDict_keys eu rz en rest]
  | (k, PyVal.num n) :: rest => by simp [resolveDict, resolveDict_keys eu rz en rest]

theorem substDict_keys (en : Str) :
    ∀ kvs : List (Str × PyVal), (substDict en kvs).map Prod.fst = kvs.map Prod.fst
  | [] => by simp [substDict]
  | (k, PyVal.list ys) :: rest => by simp [substDict, substDict_keys en rest]
  | (k, PyVal.dict kvs2) :: rest => by simp [substDict, substDict_keys en rest]
  | (k, PyVal.str s) :: rest => by simp [substDict, substDict_keys en rest]
  | (k, PyVal.num n) :: rest => by simp [substDict, substDict_keys en rest]

/-- C7: resolve_strings replaces every occurrence of the literal
placeholder in string values with the experiment name, never alters
mapping keys or non-string non-container leaves, and for mapping entries
whose key contains "path" normalizes the resulting string (kept if
absolute, home-expanded on a leading tilde, otherwise resolved against the
working directory): it coincides with the two-pass specification
(substitute everywhere, then normalize path entries), and keys are
preserved. -/
theorem resolve_strings_correct (eu rz : Str → Str) (en : Str) :
    (∀ v : PyVal, resolve_strings eu rz en v = specResolve eu rz en v)
    ∧ (∀ kvs : List (Str × PyVal),
        (resolveDict eu rz en kvs).map Prod.fst = kvs.map Prod.fst)
    ∧ (∀ xs : List PyVal, resolveList eu rz en (PyVal.num 0 :: xs)
        = PyVal.num 0 :: resolveList eu rz en xs)
    ∧ (∀ s : Str, resolveList eu rz en [PyVal.str s]
        = [PyVal.str (pyReplace s placeholder en)]) := by
  refine ⟨?_, resolveDict_keys eu rz en, ?_, ?_⟩
  · intro v
    cases v with
    | str s => simp [resolve_strings, specResolve, substList]
    | num n => simp [resolve_strings, specResolve, substList]
    | list xs =>
      simp [resolve_strings, specResolve, substList, resolveList_eq_spec eu rz en xs]
    | dict kvs =>
      simp [resolve_strings, specResolve, substList, resolveDict_eq_spec eu rz en kvs]
  · intro xs
    simp [resolveList]
  · intro s
    simp [resolveList]

theorem lexLe_refl : ∀ s : Str, lexLe s s = true
  | [] => rfl
  | a :: as => by simp [lexLe, lexLe_refl as]

theorem lexLe_total : ∀ a b : Str, lexLe a b = true ∨ lexLe b a = true
  | [], _ => Or.inl rfl
  | _ :: _, [] => Or.inr rfl
  | a :: as, b :: bs => by
    rcases lt_trichotomy a b with h | h | h
    · exact Or.inl (by simp [lexLe, h])
    · subst h
      rcases lexLe_total as bs with h2 | h2
      · exact Or.inl (by simp [lexLe, h2])
      · exact Or.inr (by simp [lexLe, h2])
    · exact Or.inr (by simp [lexLe, h])

theorem lexLe_trans : ∀ a b c : Str,
    lexLe a b = true → lexLe b c = true → lexLe a c = true
  | [], _, _ => by intro _ _; rfl
  | _ :: _, [], _ => by intro h1; simp [lexLe] at h1
  | _ :: _, _ :: _, [] => by intro _ h2; simp [lexLe] at h2
  | a :: as, b :: bs, c :: cs => by
    intro h1 h2
    simp only [lexLe, Bool.or_eq_true, Bool.and_eq_true, decide_eq_true_eq,
      beq_iff_eq] at h1 h2 ⊢
    rcases h1 with h1 | ⟨rfl, h1⟩
    · rcases h2 with h2 | ⟨rfl, _⟩
      · exact Or.inl (lt_trans h1 h2)
      · exact Or.inl h1
    · rcases h2 with h2 | ⟨rfl, h2⟩
      · exact Or.inl h2
      · exact Or.inr ⟨rfl, lexLe_trans as bs cs h1 h2⟩

/-- Sorted ascending in the lexicographic order. -/
def SortedLe (l : List Str) : Prop := List.Pairwise (fun a b => lexLe a b = true) l

theorem mem_insertLe (a x : Str) : ∀ l : List Str, x ∈ insertLe a l ↔ x = a ∨ x ∈ l
  | [] => by simp [insertLe]
  | b :: bs => by
    by_cases h : lexLe a b
    · simp only [insertLe, h, if_pos]
      simp [List.mem_cons]
    · simp only [insertLe, h, if_neg, Bool.false_eq_true, not_false_iff]
      simp [List.mem_cons, mem_insertLe a x bs]
      tauto

theorem sorted_insertLe (a : Str) : ∀ l : List Str, SortedLe l → SortedLe (insertLe a l)
  | [], _ => by simp [insertLe, SortedLe]
  | b :: bs, hs => by
    rcases (List.pairwise_cons.mp hs) with ⟨hb, hbs⟩
    by_cases h : lexLe a b
    · simp only [insertLe, h, if_pos]
      refine List.pairwise_cons.mpr ⟨?_, hs⟩
      intro y hy
      rcases List.mem_cons.mp hy with rfl | hy
      · exact h
      · exact lexLe_trans a b y h (hb y hy)
    · simp only [insertLe, h, if_neg, Bool.false_eq_true, not_false_iff]
      refine List.pairwise_cons.mpr ⟨?_, sorted_insertLe a bs hbs⟩
      intro y hy
      rcases (mem_insertLe a y bs).mp hy with rfl | hy
      · rcases lexLe_total y b with h2 | h2
        · exact absurd h2 (by simpa using h)
        · exact h2
      · exact hb y hy

theorem mem_sortL (x : Str) : ∀ l : List Str, x ∈ sortL l ↔ x ∈ l
  | [] => by simp [sortL]
  | a :: rest => by
    have ih := mem_sortL x rest
    simp only [sortL, List.foldr_cons] at ih ⊢
    rw [mem_insertLe]
    simp [ih, List.mem_cons]

theorem sorted_sortL : ∀ l : List Str, SortedLe (sortL l)
  | [] => by simp [sortL, SortedLe]
  | a :: rest => by
    have ih := sorted_sortL rest
    simp only [sortL, List.foldr_cons] at ih ⊢
    exact sorted_insertLe a _ ih

theorem getLast_is_max : ∀ (l : List Str) (m : Str), SortedLe l →
    l.getLast? = some m → ∀ x ∈ l, lexLe x m = true
  | [], m, _, hl => by simp at hl
  | [a], m, _, hl => by
    intro x hx
    simp at hl hx
    subst hl; subst hx
    exact lexLe_refl _
  | a :: b :: rest, m, hs, hl => by
    intro x hx
    rw [List.getLast?_cons_cons] at hl
    rcases (List.pairwise_cons.mp hs) with ⟨ha, hbs⟩
    rcases List.mem_cons.mp hx with rfl | hx
    · have hm : m ∈ b :: rest := by
        have h2 : m ∈ (b :: rest).getLast? := hl
        rcases List.mem_getLast?_eq_getLast h2 with ⟨hne, rfl⟩
        exact List.getLast_mem hne
      exact ha m hm
    · exact getLast_is_max (b :: rest) m hbs hl x hx

/-- A path in the file system, as seen by find_latest_checkpoint: an
existing regular file, a directory with its entry names, or a missing
path (os.path.isdir is then false and the path is returned unchanged,
exactly like a file). -/
inductive FSNode where
  | file
  | dir (entries : List Str)
  | absent
deriving DecidableEq

/-- os.path.join for a directory path with no trailing separator. -/
def join_path (dir name : Str) : Str := dir ++ "/".toList ++ name

/-- The checkpoint-descriptor naming convention tested by
find_latest_checkpoint. -/
def checkpoint_suffix : Str := "_checkpoint.yaml".toList

/-- find_latest_checkpoint(path): if path is not a directory return it
directly; otherwise keep the entries ending in the checkpoint suffix,
sort them, and return the directory joined with the last one; raise
ValueError naming the directory when no entry matches. -/
def find_latest_checkpoint (node : FSNode) (path : Str) : Except Str Str :=
  match node with
  | FSNode.dir entries =>
    let names := entries.filter (fun n => checkpoint_suffix.isSuffixOf n)
    let names := sortL names
    match names.getLast? with
    | some n => Except.ok (join_path path n)
    | none => Except.error ("Found no checkpoint within ".toList ++ path)
  | _ => Except.ok path

/-- C3 counterexample: the directory of the claim example, whose
checkpoint files end in the extension x instead of yaml. The code filters
on the yaml suffix, finds no matching entry, and raises instead of
returning the path ending in 0000000000000010_checkpoint.x. -/
theorem find_latest_checkpoint_claim_counterexample :
    find_latest_checkpoint
        (FSNode.dir ["0000000000000005_checkpoint.x".toList,
          "0000000000000010_checkpoint.x".toList, "unrelated.txt".toList])
        "ckpts".toList
      = Except.error ("Found no checkpoint within ckpts".toList)
    ∧ find_latest_checkpoint
        (FSNode.dir ["0000000000000005_checkpoint.x".toList,
          "0000000000000010_checkpoint.x".toList, "unrelated.txt".toList])
        "ckpts".toList
      ≠ Except.ok (join_path "ckpts".toList "0000000000000010_checkpoint.x".toList) := by
  constructor
  · decide
  · decide

/-- C3 (amended: the naming convention matched is the yaml checkpoint
suffix, so the example files must end in _checkpoint.yaml; files ending
in _checkpoint.x do not match): a non-directory path is returned
unchanged; a directory with no matching entry fails with the error naming
the directory; a directory with matching entries yields the directory
joined with the lexicographically greatest matching entry, as the example
with steps 5 and 10 plus an unrelated file shows. -/
theorem find_latest_checkpoint_spec :
    (∀ p : Str, find_latest_checkpoint FSNode.file p = Except.ok p)
    ∧ (∀ (p : Str) (entries : List Str),
        entries.filter (fun n => checkpoint_suffix.isSuffixOf n) = [] →
        find_latest_checkpoint (FSNode.dir entries) p
          = Except.error ("Found no checkpoint within ".toList ++ p))
    ∧ (∀ (p : Str) (entries : List Str) (m : Str),
        (sortL (entries.filter (fun n => checkpoint_suffix.isSuffixOf n))).getLast? = some m →
        find_latest_checkpoint (FSNode.dir entries) p = Except.ok (join_path p m)
        ∧ m ∈ entries ∧ checkpoint_suffix.isSuffixOf m = true
        ∧ ∀ x ∈ entries, checkpoint_suffix.isSuffixOf x = true → lexLe x m = true)
    ∧ find_latest_checkpoint
        (FSNode.dir ["0000000000000005_checkpoint.yaml".toList,
          "unrelated.txt".toList, "0000000000000010_checkpoint.yaml".toList])
        "ckpts".toList
      = Except.ok (join_path "ckpts".toList "0000000000000010_checkpoint.yaml".toList) := by
  refine ⟨fun p => rfl, ?_, ?_, by decide⟩
  · intro p entries hf
    simp [find_latest_checkpoint, hf, sortL]
  · intro p entries m hm
    have hmem : m ∈ sortL (entries.filter (fun n => checkpoint_suffix.isSuffixOf n)) := by
      have h2 : m ∈ (sortL (entries.filter (fun n => checkpoint_suffix.isSuffixOf n))).getLast? := hm
      rcases List.mem_getLast?_eq_getLast h2 with ⟨hne, rfl⟩
      exact List.getLast_mem hne
    have hmem2 : m ∈ entries.filter (fun n => checkpoint_suffix.isSuffixOf n) :=
      (mem_sortL m _).mp hmem
    have hme : m ∈ entries := List.mem_of_mem_filter hmem2
    have hms : checkpoint_suffix.isSuffixOf m = true := by
      have := List.of_mem_filter hmem2
      simpa using this
    refine ⟨by simp [find_latest_checkpoint, hm], hme, hms, ?_⟩
    intro x hx hxs
    have hxm : x ∈ sortL (entries.filter (fun n => checkpoint_suffix.isSuffixOf n)) := by
      rw [mem_sortL]
      exact List.mem_filter.mpr ⟨hx, by simpa using hxs⟩
    exact getLast_is_max _ m (sorted_sortL _) hm x hxm

/-- C3 witness: the general parts of find_latest_checkpoint_spec applied
at concrete inputs, with every hypothesis discharged by evaluation. -/
theorem find_latest_checkpoint_spec_witness :
    find_latest_checkpoint FSNode.file "exp.yaml".toList = Except.ok "exp.yaml".toList
    ∧ find_latest_checkpoint (FSNode.dir ["readme.md".toList]) "ck".toList
      = Except.error ("Found no checkpoint within ck".toList)
    ∧ find_latest_checkpoint (FSNode.dir ["b_checkpoint.yaml".toList, "a_checkpoint.yaml".toList])
        "ck".toList
      = Except.ok (join_path "ck".toList "b_checkpoint.yaml".toList) := by
  refine ⟨find_latest_checkpoint_spec.1 _, find_latest_checkpoint_spec.2.1 _ _ (by decide), ?_⟩
  exact (find_latest_checkpoint_spec.2.2.1 _ _ _ (by decide)).1

/-- The fields of a parsed experiment descriptor that load_experiment
validates. An Option value none stands for an absent key (or a yaml null,
which the dictionary get chain also turns into None); some holds the
present value, possibly the empty string. -/
structure Descriptor where
  name_field : Option Str
  summary_path : Option Str
  checkpoint_path : Option Str
  global_step_field : Option Nat
deriving DecidableEq

/-- Python truthiness of the value produced by the get chain
experiment.get(section, dict()).get(key, None): None and the empty
string are falsy. -/
def py_truthy_str : Option Str → Bool
  | none => false
  | some s => !s.isEmpty

/-- The part of the session context that load_experiment computes from
the descriptor (the runtime handles — strategy, logger, scribe — are
built from external state and modelled elsewhere). -/
structure SessionInit where
  ename : Str
  summary_path : Str
  checkpoint_path : Str
  exp_global_step : Nat
  ctx_global_step : Nat
deriving DecidableEq

/-- load_experiment(path): reject a path that is not a file; reject a
descriptor without a name key, with a falsy summary path, or with a falsy
checkpoint path, in that order; default the global step to 0 when the key
is absent; return the session context with the context global_step entry
copied from the (defaulted) descriptor global step. -/
def load_experiment (is_file : Bool) (path : Str) (d : Descriptor) : Except Str SessionInit :=
  if !is_file then Except.error ("Invalid experiment path: ".toList ++ path)
  else
    match d.name_field with
    | none => Except.error "An experiment needs a name.".toList
    | some nm =>
      if !py_truthy_str d.summary_path then
        Except.error "An experiment needs a scribe.".toList
      else if !py_truthy_str d.checkpoint_path then
        Except.error "An experiment needs a dir for checkpoint".toList
      else
        let gs := d.global_step_field.getD 0
        Except.ok
          { ename := nm
            summary_path := d.summary_path.getD []
            checkpoint_path := d.checkpoint_path.getD []
            exp_global_step := gs
            ctx_global_step := gs }

/-- C8 counterexample: a descriptor whose summary.path key is present but
holds the empty string. Every required field is present, yet
load_experiment fails (the source tests Python truthiness, not key
presence), so failing if and only if a required field is missing is false
at this input. -/
theorem load_experiment_claim_counterexample :
    load_experiment true "exp.yaml".toList
        { name_field := some "x".toList, summary_path := some [],
          checkpoint_path := some "/ck".toList, global_step_field := none }
      = Except.error "An experiment needs a scribe.".toList
    ∧ ({ name_field := some "x".toList, summary_path := some [],
          checkpoint_path := some "/ck".toList,
          global_step_field := none : Descriptor }).summary_path ≠ none := by
  exact ⟨by decide, by decide⟩

/-- C8 (amended: for summary.path and checkpoint.path the check is Python
truthiness — absent, null or empty values are all rejected — while for
name it is key presence): load_experiment fails, before anything else
runs, if and only if the path is not a valid file or the name key is
absent or summary.path is falsy or checkpoint.path is falsy; on success
the global step defaults to 0 when absent. -/
theorem load_experiment_spec :
    ∀ (is_file : Bool) (path : Str) (d : Descriptor),
      ((load_experiment is_file path d).isOk = false
        ↔ (is_file = false ∨ d.name_field = none
            ∨ py_truthy_str d.summary_path = false
            ∨ py_truthy_str d.checkpoint_path = false))
      ∧ (∀ res : SessionInit, load_experiment is_file path d = Except.ok res →
          res.exp_global_step = d.global_step_field.getD 0
          ∧ res.ctx_global_step = d.global_step_field.getD 0
          ∧ (d.global_step_field = none → res.exp_global_step = 0)) := by
  intro is_file path d
  constructor
  · cases is_file with
    | false => simp [load_experiment, Except.isOk, Except.toBool]
    | true =>
      cases hn : d.name_field with
      | none => simp [load_experiment, hn, Except.isOk, Except.toBool]
      | some nm =>
        cases hs : py_truthy_str d.summary_path with
        | false => simp [load_experiment, hn, hs, Except.isOk, Except.toBool]
        | true =>
          cases hc : py_truthy_str d.checkpoint_path with
          | false => simp [load_experiment, hn, hs, hc, Except.isOk, Except.toBool]
          | true => simp [load_experiment, hn, hs, hc, Except.isOk, Except.toBool]
  · intro res hres
    cases is_file with
    | false => simp [load_experiment] at hres
    | true =>
      cases hn : d.name_field with
      | none => simp [load_experiment, hn] at hres
      | some nm =>
        cases hs : py_truthy_str d.summary_path with
        | false => simp [load_experiment, hn, hs] at hres
        | true =>
          cases hc : py_truthy_str d.checkpoint_path with
          | false => simp [load_experiment, hn, hs, hc] at hres
          | true =>
            simp [load_experiment, hn, hs, hc] at hres
            have h1 : res.exp_global_step = d.global_step_field.getD 0 := by
              rw [← hres]
            have h2 : res.ctx_global_step = d.global_step_field.getD 0 := by
              rw [← hres]
            refine ⟨h1, h2, ?_⟩
            intro hg
            rw [h1, hg]
            rfl

/-- C8 witness: a rejected descriptor with an empty checkpoint path, and
an accepted descriptor with no global_step key whose session context gets
global step 0, both obtained from load_experiment_spec at concrete
inputs. -/
theorem load_experiment_spec_witness :
    (load_experiment true "exp.yaml".toList
        { name_field := some "x".toList, summary_path := some "/s".toList,
          checkpoint_path := some [], global_step_field := none }).isOk = false
    ∧ ({ ename := "x".toList, summary_path := "/s".toList,
          checkpoint_path := "/ck".toList, exp_global_step := 0,
          ctx_global_step := 0 : SessionInit }).exp_global_step = 0 := by
  constructor
  · exact (load_experiment_spec true "exp.yaml".toList _).1.mpr
      (Or.inr (Or.inr (Or.inr (by decide))))
  · exact ((load_experiment_spec true "exp.yaml".toList
      { name_field := some "x".toList, summary_path := some "/s".toList,
        checkpoint_path := some "/ck".toList, global_step_field := none }).2
      _ (by decide)).2.2 rfl

/-- The distribution strategy selected in load_experiment: one logical
GPU gives a OneDeviceStrategy, several give a MirroredStrategy over that
many replicas. -/
inductive StrategyE where
  | oneDevice
  | mirrored (num_gpus : Nat)
deriving DecidableEq

/-- Number of parallel replicas of a strategy (len of the logical GPU
list used when the strategy was built). -/
def StrategyE.num_replicas : StrategyE → Nat
  | StrategyE.oneDevice => 1
  | StrategyE.mirrored n => n

/-- A tensor of real scalars. -/
abbrev Tensor := List ℚ

/-- One batch: the tuple of tensors a dataset yields per iteration. -/
abbrev Batch := List Tensor

/-- A distributed batch: one per-replica batch per replica. -/
abbrev DistBatch := List Batch

/-- The abstract external collaborators closed over by the adapters:
the model forward pass (per model name), the gradient of the scaled loss
recorded by the tape (per model name), and the optimizer update rule
applied by apply_gradients (per optimizer name). -/
structure ModelFns where
  forward : Str → Batch → Tensor
  gradient : Str → Batch → ℚ → List ℚ
  applyGradients : Str → List ℚ → List ℚ → List ℚ

/-- The value strategy.experimental_run_v2 hands back: a MirroredStrategy
wraps the per-replica results in a per-replica container (exposing a
values attribute), a OneDeviceStrategy returns the single result
directly. -/
inductive RunResult (α : Type) where
  | perReplica (vals : List α)
  | single (v : α)
deriving DecidableEq

/-- strategy.experimental_run_v2(fn, args=(data,)). -/
def run_v2 {α : Type} (strat : StrategyE) (f : Batch → α) (data : DistBatch) : RunResult α :=
  match strat with
  | StrategyE.oneDevice => RunResult.single (f (data.getD 0 []))
  | StrategyE.mirrored _ => RunResult.perReplica (data.map f)

/-- hasattr(resp_component, values): true exactly for the per-replica
container form. -/
def has_values_attr {α : Type} : RunResult α → Bool
  | RunResult.perReplica _ => true
  | RunResult.single _ => false

/-- MEAN reduction of a list of scalars. -/
def reduce_mean_rat (xs : List ℚ) : ℚ := xs.sum / (xs.length : ℚ)

/-- Rearrange the incoming batch tuple by the configured index list
(new_inputs = [inputs[index] for index in index_inputs]). -/
def permute_inputs (index_inputs : List Nat) (inputs : Batch) : Batch :=
  index_inputs.map (fun i => inputs.getD i [])

/-- The per-replica body of the training adapter: permute the inputs,
run the model to get the per-element loss tensor, sum it and scale by
1/num_replicas; also record the tape gradient of the scaled loss. -/
def train_one_step (mf : ModelFns) (model : Str) (index_inputs : List Nat)
    (num_replicas : Nat) (inputs : Batch) : ℚ × List ℚ :=
  let new_inputs := permute_inputs index_inputs inputs
  let loss := (mf.forward model new_inputs).sum * (1 / (num_replicas : ℚ))
  (loss, mf.gradient model new_inputs loss)

/-- Elementwise sum of the per-replica gradients, performed by the
synchronized apply_gradients before the single shared update. -/
def sum_replica_grads (gs : List (List ℚ)) : List ℚ :=
  match gs with
  | [] => []
  | g :: rest => rest.foldl (fun acc h => List.zipWith (fun a b => a + b) acc h) g

/-- The training adapter built by build_strategic_training_model: run the
per-replica step under the strategy; apply_gradients inside the strategy
scope sums the gradients over all replicas and performs exactly one
shared optimizer update (one counter increment); the adapter returns the
MEAN over replicas of the per-replica scalar losses. Input: the trainable
variables and the optimizer iteration counter; output: their new values
and the returned loss. -/
def train_one_step_in_graph (mf : ModelFns) (strat : StrategyE) (model : Str)
    (index_inputs : List Nat) (opt : Str) (num_replicas : Nat)
    (vars : List ℚ) (iterations : Nat) (data : DistBatch) : List ℚ × Nat × ℚ :=
  match run_v2 strat (train_one_step mf model index_inputs num_replicas) data with
  | RunResult.single lg =>
    (mf.applyGradients opt vars lg.2, iterations + 1, lg.1)
  | RunResult.perReplica results =>
    (mf.applyGradients opt vars (sum_replica_grads (results.map Prod.snd)),
      iterations + 1, reduce_mean_rat (results.map Prod.fst))

/-- The per-replica body of the validation adapter: permute the inputs,
run the model, and pair its output with the reference (hd image) tensor
picked from the raw inputs; no parameter is touched. -/
def validate_one_step (mf : ModelFns) (model : Str) (index_inputs : List Nat)
    (index_hd_images : Nat) (inputs : Batch) : Tensor × Tensor :=
  (mf.forward model (permute_inputs index_inputs inputs), inputs.getD index_hd_images [])

/-- The validation adapter built by build_strategic_validation_model:
run the per-replica step under the strategy and hand back the strategy
result as a pair of components (model outputs, reference tensors), each
in the form run_v2 produced them: a per-replica container under a
MirroredStrategy, the bare tensors under a OneDeviceStrategy. -/
def validate_one_step_in_graph (mf : ModelFns) (strat : StrategyE) (model : Str)
    (index_inputs : List Nat) (index_hd_images : Nat) (data : DistBatch) :
    RunResult Tensor × RunResult Tensor :=
  match run_v2 strat (validate_one_step mf model index_inputs index_hd_images) data with
  | RunResult.single oh => (RunResult.single oh.1, RunResult.single oh.2)
  | RunResult.perReplica ps =>
    (RunResult.perReplica (ps.map Prod.fst), RunResult.perReplica (ps.map Prod.snd))

/-- The branch in validate on hasattr(resp[0], values): concatenate the
per-replica values along the batch axis, or take the single tensor. -/
def concat_result : RunResult Tensor → Tensor
  | RunResult.perReplica ts => ts.flatten
  | RunResult.single t => t

/-- Configuration of one optimizer entry of the descriptor. -/
structure OptCfg where
  cycle : Nat
  extension_model : Str
  dataset_name : Str
  input_indices : List Nat
deriving DecidableEq

/-- Configuration of one validator entry of the descriptor. -/
structure ValCfg where
  vname : Str
  principal_model : Str
  dataset_name : Str
  input_indices : List Nat
  hd_image_index : Nat
  cycle : Nat
deriving DecidableEq

/-- The mutable experiment descriptor held in the session context (only
the parts the orchestration engine reads or writes). principals maps a
principal model name to its stored weight-file path, absent for a fresh
experiment; opt_snapshots holds the optimizer config snapshots written
by save. -/
structure Experiment where
  ename : Str
  checkpoint_path : Str
  checkpoint_cycle : Nat
  exp_global_step : Nat
  principals : List (Str × Option Str)
  optimizer_cfgs : List (Str × OptCfg)
  opt_snapshots : List (Str × Nat)
  validator_cfgs : List ValCfg
deriving DecidableEq

/-- A record written to the metrics sink (tf.summary scalar or image). -/
inductive SummaryEvent where
  | scalar (tag : Str) (step : Nat) (value : ℚ)
  | image (tag : Str) (step : Nat)
deriving DecidableEq

/-- The session context dictionary: the descriptor, the strategy, the
live optimizer iteration counters, the trainable variables of the
extension models, the dataset iterators (how many batches each has
yielded), the global_step entry fixed at load time, and the metrics
written so far. -/
structure Context where
  experiment : Experiment
  strategy : StrategyE
  optimizers : List (Str × Nat)
  ext_vars : List (Str × List ℚ)
  datasets_built : Bool
  datasets_consumed : List (Str × Nat)
  ctx_global_step : Nat
  summaries : List SummaryEvent
deriving DecidableEq

/-- strategy.reduce(MEAN, optimizer.iterations): the counter is a
synchronized mirrored variable, holding the same value on every replica,
so the reduction averages num_replicas equal integers and int() truncates
the exact result. -/
def strategy_reduce_mean (strat : StrategyE) (v : Nat) : Nat :=
  (List.replicate strat.num_replicas v).sum / strat.num_replicas

/-- global_step(context): fold over the live optimizers taking the max of
the MEAN-reduced iteration counters, then add the global_step entry of
the context. -/
def global_step (ctx : Context) : Nat :=
  (ctx.optimizers.foldl (fun step p => max step (strategy_reduce_mean ctx.strategy p.2)) 0)
    + ctx.ctx_global_step

/-- next(dataset): advance the named dataset iterator once and yield the
batch it produces (the abstract batch source maps a dataset name and a
position to the distributed batch delivered there). -/
def next_batch (batch_of : Str → Nat → DistBatch) (ctx : Context) (dname : Str) :
    Context × DistBatch :=
  let n := lookupD ctx.datasets_consumed dname 0
  ({ ctx with datasets_consumed := setA ctx.datasets_consumed dname (n + 1) },
    batch_of dname n)

/-- One invocation of a training adapter on a context: reads the
trainable variables of the configured extension model and the counter of
the optimizer, runs the adapter, and stores the updated variables and
counter back; returns the scalar loss. -/
def run_training_adapter (mf : ModelFns) (ctx : Context) (opt_name : Str)
    (cfg : OptCfg) (data : DistBatch) : Context × ℚ :=
  let vars := lookupD ctx.ext_vars cfg.extension_model []
  let iters := lookupD ctx.optimizers opt_name 0
  let r := train_one_step_in_graph mf ctx.strategy cfg.extension_model
    cfg.input_indices opt_name ctx.strategy.num_replicas vars iters data
  ({ ctx with
      ext_vars := setA ctx.ext_vars cfg.extension_model r.1
      optimizers := setA ctx.optimizers opt_name r.2.1 },
    r.2.2)

/-- The cyclic gate of the scheduler, as the spec states it. -/
def fires (cycle step : Nat) : Bool := step % cycle == 0

/-- The tag of a training loss scalar record. -/
def loss_tag (name : Str) : Str := "loss[".toList ++ name ++ "]".toList

/-- One iteration of the loop body of train, for one optimizer entry:
skip unless the cycle divides the step; otherwise pull one batch from the
bound dataset, invoke the training adapter, and record the loss. -/
def train_unit (mf : ModelFns) (batch_of : Str → Nat → DistBatch) (step : Nat)
    (c : Context) (p : Str × OptCfg) : Context :=
  if step % p.2.cycle != 0 then c
  else
    let cb := next_batch batch_of c p.2.dataset_name
    let cl := run_training_adapter mf cb.1 p.1 p.2 cb.2
    { cl.1 with
        summaries := cl.1.summaries ++ [SummaryEvent.scalar (loss_tag p.1) step cl.2] }

/-- train(context): compute the global step once, then run the loop body
over all optimizer entries. -/
def train (mf : ModelFns) (batch_of : Str → Nat → DistBatch) (ctx : Context) : Context :=
  ctx.experiment.optimizer_cfgs.foldl (train_unit mf batch_of (global_step ctx)) ctx

/-- One iteration of the loop body of validate, for one validator entry:
skip unless the cycle divides the step; otherwise pull one batch, invoke
the validation adapter, concatenate each response component by the
hasattr branch, compute PSNR and SSIM through the abstract metric
functions, and record two scalars and the composite image. psnr_fn and
ssim_fn model tf.image.psnr / tf.image.ssim followed by np.mean. -/
def validate_unit (mf : ModelFns) (batch_of : Str → Nat → DistBatch)
    (psnr_fn ssim_fn : Tensor → Tensor → ℚ) (step : Nat)
    (c : Context) (v : ValCfg) : Context :=
  if step % v.cycle != 0 then c
  else
    let cb := next_batch batch_of c v.dataset_name
    let resp := validate_one_step_in_graph mf cb.1.strategy v.principal_model
      v.input_indices v.hd_image_index cb.2
    let sr_images := concat_result resp.1
    let hd_images := concat_result resp.2
    { cb.1 with
        summaries := cb.1.summaries ++
          [SummaryEvent.scalar ("psnr[".toList ++ v.vname ++ "]".toList) step
              (psnr_fn sr_images hd_images),
            SummaryEvent.scalar ("ssim[".toList ++ v.vname ++ "]".toList) step
              (ssim_fn sr_images hd_images),
            SummaryEvent.image ("hd-sr[".toList ++ v.vname ++ "]".toList) step] }

/-- validate(context): compute the global step once, then run the loop
body over all validator entries. -/
def validate (mf : ModelFns) (batch_of : Str → Nat → DistBatch)
    (psnr_fn ssim_fn : Tensor → Tensor → ℚ) (ctx : Context) : Context :=
  ctx.experiment.validator_cfgs.foldl
    (validate_unit mf batch_of psnr_fn ssim_fn (global_step ctx)) ctx

/-- Python str.rjust(width, c). -/
def rjust (s : Str) (width : Nat) (c : Char) : Str :=
  List.replicate (width - s.length) c ++ s

/-- str(n) for a natural number. -/
def nat_to_str (n : Nat) : Str := (toString n).toList

/-- The weight file name written by save for one principal model at one
step. -/
def weight_file_name (step : Nat) (model : Str) : Str :=
  rjust (nat_to_str step) 16 '0' ++ "_".toList ++ model ++ ".h5".toList

/-- The checkpoint descriptor file name written by save at one step. -/
def checkpoint_file_name (step : Nat) : Str :=
  rjust (nat_to_str step) 16 '0' ++ "_checkpoint.yaml".toList

/-- A file written to disk during save, in write order: a weight file, or
the descriptor file together with the weight paths its snapshot
references. -/
inductive FileWrite where
  | weights (path : Str)
  | descriptor (path : Str) (weight_refs : List Str)
deriving DecidableEq

/-- save(context): gate on the checkpoint cycle; when firing, set the
descriptor global_step to the computed step, write one weight file per
principal model and store its path in the descriptor, snapshot the
optimizer configs, and finally write the descriptor file. The returned
list is the disk writes in program order. -/
def save (ctx : Context) : Context × List FileWrite :=
  let step := global_step ctx
  if step % ctx.experiment.checkpoint_cycle != 0 then (ctx, [])
  else
    let exp := ctx.experiment
    let principals2 := exp.principals.map
      (fun p => (p.1, some (join_path exp.checkpoint_path (weight_file_name step p.1))))
    let weight_events := exp.principals.map
      (fun p => FileWrite.weights (join_path exp.checkpoint_path (weight_file_name step p.1)))
    let exp2 := { exp with
      exp_global_step := step
      principals := principals2
      opt_snapshots := ctx.optimizers }
    let desc_event := FileWrite.descriptor
      (join_path exp.checkpoint_path (checkpoint_file_name step))
      (principals2.filterMap Prod.snd)
    ({ ctx with experiment := exp2 }, weight_events ++ [desc_event])

/-- One iteration of the loop body of build_models, for one optimizer
entry: build a fresh optimizer (counter 0) and its strategic training
adapter, then call the adapter once on the next batch of the bound
dataset to force variable creation. -/
def build_models_unit (mf : ModelFns) (batch_of : Str → Nat → DistBatch)
    (c : Context) (p : Str × OptCfg) : Context :=
  let c2 := { c with optimizers := setA c.optimizers p.1 0 }
  let cb := next_batch batch_of c2 p.2.dataset_name
  (run_training_adapter mf cb.1 p.1 p.2 cb.2).1

/-- build_models(context): require the datasets to have been built;
reset the optimizer table; then, for each optimizer entry, build a fresh
optimizer (counter 0) and its strategic training adapter, and call the
adapter once on the next batch of its bound dataset to force variable
creation. The strategic validation adapters are built without being
invoked, and principal weights are loaded from files, neither of which
touches the state modelled here. -/
def build_models (mf : ModelFns) (batch_of : Str → Nat → DistBatch)
    (ctx : Context) : Except Str Context :=
  if !ctx.datasets_built then
    Except.error "build datasets before building models".toList
  else
    Except.ok
      (ctx.experiment.optimizer_cfgs.foldl (build_models_unit mf batch_of)
        { ctx with optimizers := [] })

theorem train_one_step_in_graph_iters (mf : ModelFns) (strat : StrategyE) (model : Str)
    (idx : List Nat) (opt : Str) (nr : Nat) (vars : List ℚ) (iters : Nat) (data : DistBatch) :
    (train_one_step_in_graph mf strat model idx opt nr vars iters data).2.1 = iters + 1 := by
  cases strat <;> simp [train_one_step_in_graph, run_v2]

theorem train_one_step_in_graph_loss_mirrored (mf : ModelFns) (m : Nat) (model : Str)
    (idx : List Nat) (opt : Str) (nr : Nat) (vars : List ℚ) (iters : Nat) (data : DistBatch) :
    (train_one_step_in_graph mf (StrategyE.mirrored m) model idx opt nr vars iters data).2.2
      = reduce_mean_rat (data.map (fun b =>
          (mf.forward model (permute_inputs idx b)).sum * (1 / (nr : ℚ)))) := by
  simp only [train_one_step_in_graph, run_v2, List.map_map]
  have hfun : (Prod.fst ∘ train_one_step mf model idx nr)
      = (fun b => (mf.forward model (permute_inputs idx b)).sum * (1 / (nr : ℚ))) := by
    funext b
    simp [train_one_step, Function.comp]
  rw [hfun]

theorem train_one_step_in_graph_loss_one (mf : ModelFns) (model : Str)
    (idx : List Nat) (opt : Str) (nr : Nat) (vars : List ℚ) (iters : Nat) (data : DistBatch) :
    (train_one_step_in_graph mf StrategyE.oneDevice model idx opt nr vars iters data).2.2
      = (mf.forward model (permute_inputs idx (data.getD 0 []))).sum * (1 / (nr : ℚ)) := by
  simp [train_one_step_in_graph, run_v2, train_one_step]

/-- C1: one invocation of the training adapter performs exactly one
optimizer update (the counter of the invoked optimizer goes up by one,
every other counter is untouched); under the mirrored strategy the
returned value is the MEAN over replicas of the per-replica losses, each
the model loss on the permuted inputs summed over elements and scaled by
one over the replica count, and under the one-device strategy it is that
single scalar; and no part of the session context changes except the
trainable variables of the trained extension model and the counter. -/
theorem training_adapter_contract (mf : ModelFns) (ctx : Context) (opt_name : Str)
    (cfg : OptCfg) (data : DistBatch) :
    lookupD (run_training_adapter mf ctx opt_name cfg data).1.optimizers opt_name 0
        = lookupD ctx.optimizers opt_name 0 + 1
    ∧ (∀ n2 : Str, n2 ≠ opt_name →
        lookupD (run_training_adapter mf ctx opt_name cfg data).1.optimizers n2 0
          = lookupD ctx.optimizers n2 0)
    ∧ (∀ m : Nat, ctx.strategy = StrategyE.mirrored m →
        (run_training_adapter mf ctx opt_name cfg data).2
          = reduce_mean_rat (data.map (fun b =>
              (mf.forward cfg.extension_model (permute_inputs cfg.input_indices b)).sum
                * (1 / (m : ℚ)))))
    ∧ (ctx.strategy = StrategyE.oneDevice →
        (run_training_adapter mf ctx opt_name cfg data).2
          = (mf.forward cfg.extension_model
              (permute_inputs cfg.input_indices (data.getD 0 []))).sum * (1 / (1 : ℚ)))
    ∧ (run_training_adapter mf ctx opt_name cfg data).1.experiment = ctx.experiment
    ∧ (run_training_adapter mf ctx opt_name cfg data).1.strategy = ctx.strategy
    ∧ (run_training_adapter mf ctx opt_name cfg data).1.datasets_built = ctx.datasets_built
    ∧ (run_training_adapter mf ctx opt_name cfg data).1.datasets_consumed
        = ctx.datasets_consumed
    ∧ (run_training_adapter mf ctx opt_name cfg data).1.ctx_global_step = ctx.ctx_global_step
    ∧ (run_training_adapter mf ctx opt_name cfg data).1.summaries = ctx.summaries
    ∧ (∀ mn : Str, mn ≠ cfg.extension_model →
        lookupD (run_training_adapter mf ctx opt_name cfg data).1.ext_vars mn []
          = lookupD ctx.ext_vars mn []) := by
  refine ⟨?_, ?_, ?_, ?_, rfl, rfl, rfl, rfl, rfl, rfl, ?_⟩
  · show lookupD (setA ctx.optimizers opt_name
      (train_one_step_in_graph mf ctx.strategy cfg.extension_model cfg.input_indices
        opt_name ctx.strategy.num_replicas (lookupD ctx.ext_vars cfg.extension_model [])
        (lookupD ctx.optimizers opt_name 0) data).2.1) opt_name 0
        = lookupD ctx.optimizers opt_name 0 + 1
    rw [train_one_step_in_graph_iters, lookupD_setA_self]
  · intro n2 hn2
    exact lookupD_setA_ne _ _ _ _ _ (fun hc => hn2 hc.symm)
  · intro m hm
    show (train_one_step_in_graph mf ctx.strategy cfg.extension_model cfg.input_indices
        opt_name ctx.strategy.num_replicas (lookupD ctx.ext_vars cfg.extension_model [])
        (lookupD ctx.optimizers opt_name 0) data).2.2 = _
    rw [hm]
    exact train_one_step_in_graph_loss_mirrored mf m _ _ _ _ _ _ data
  · intro hm
    show (train_one_step_in_graph mf ctx.strategy cfg.extension_model cfg.input_indices
        opt_name ctx.strategy.num_replicas (lookupD ctx.ext_vars cfg.extension_model [])
        (lookupD ctx.optimizers opt_name 0) data).2.2 = _
    rw [hm]
    exact train_one_step_in_graph_loss_one mf _ _ _ _ _ _ data
  · intro mn hmn
    exact lookupD_setA_ne _ _ _ _ _ (fun hc => hmn hc.symm)

/-- A tiny concrete collaborator set for witnesses. -/
def mf0 : ModelFns :=
  { forward := fun _ b => b.flatten
    gradient := fun _ _ _ => [1]
    applyGradients := fun _ vars g => List.zipWith (fun a b => a + b) vars g }

/-- A concrete two-replica training context for witnesses. -/
def ctx0 : Context :=
  { experiment :=
      { ename := "exp".toList
        checkpoint_path := "/ck".toList
        checkpoint_cycle := 2
        exp_global_step := 0
        principals := [("gen".toList, none)]
        optimizer_cfgs := [("a".toList,
          { cycle := 1, extension_model := "m".toList,
            dataset_name := "d".toList, input_indices := [1, 0] })]
        opt_snapshots := []
        validator_cfgs := [] }
    strategy := StrategyE.mirrored 2
    optimizers := [("a".toList, 4), ("b".toList, 9)]
    ext_vars := [("m".toList, [0])]
    datasets_built := true
    datasets_consumed := [("d".toList, 0)]
    ctx_global_step := 10
    summaries := [] }

/-- The optimizer configuration of ctx0. -/
def cfg0 : OptCfg :=
  { cycle := 1, extension_model := "m".toList,
    dataset_name := "d".toList, input_indices := [1, 0] }

/-- C1 witness: the contract applied at a concrete context and a concrete
two-replica batch; the invoked counter rises from 4 to 5, the other
counter stays 9, and the summaries are untouched. -/
theorem training_adapter_contract_witness :
    lookupD (run_training_adapter mf0 ctx0 "a".toList cfg0 [[[1], [2]], [[3], [4]]]).1.optimizers
        "a".toList 0 = 5
    ∧ lookupD (run_training_adapter mf0 ctx0 "a".toList cfg0 [[[1], [2]], [[3], [4]]]).1.optimizers
        "b".toList 0 = 9
    ∧ (run_training_adapter mf0 ctx0 "a".toList cfg0 [[[1], [2]], [[3], [4]]]).1.summaries
        = ctx0.summaries := by
  have h := training_adapter_contract mf0 ctx0 "a".toList cfg0 [[[1], [2]], [[3], [4]]]
  refine ⟨h.1.trans (by decide), ?_, h.2.2.2.2.2.2.2.2.2.1⟩
  exact (h.2.1 "b".toList (by decide)).trans (by decide)

theorem replicate_mean (n v : Nat) (h : 1 ≤ n) :
    (List.replicate n v).sum / n = v := by
  rw [List.sum_replicate, smul_eq_mul]
  exact Nat.mul_div_cancel_left v h

/-- The first example context of the global step claim: reduced counts 3
and 7 with stored offset 10. -/
def c2_ctx_a : Context :=
  { ctx0 with
      optimizers := [("opt1".toList, 3), ("opt2".toList, 7)]
      ctx_global_step := 10 }

/-- The second example context of the global step claim: a single
untrained optimizer and stored offset 5. -/
def c2_ctx_b : Context :=
  { ctx0 with
      optimizers := [("opt1".toList, 0)]
      ctx_global_step := 5 }

/-- C2: global_step returns the maximum over live optimizers of the
MEAN-reduced iteration counter plus the base offset stored in the
context at session start; counts 3 and 7 with offset 10 give 17, count 0
with offset 5 gives 5. -/
theorem global_step_correct :
    (∀ ctx : Context, 1 ≤ ctx.strategy.num_replicas →
      global_step ctx = (ctx.optimizers.map Prod.snd).foldl max 0 + ctx.ctx_global_step)
    ∧ global_step c2_ctx_a = 17
    ∧ global_step c2_ctx_b = 5 := by
  refine ⟨?_, by decide, by decide⟩
  intro ctx h
  have hr : ∀ v : Nat, strategy_reduce_mean ctx.strategy v = v := by
    intro v
    exact replicate_mean _ v h
  unfold global_step
  congr 1
  have hfold : ∀ (l : List (Str × Nat)) (acc : Nat),
      l.foldl (fun step p => max step (strategy_reduce_mean ctx.strategy p.2)) acc
        = (l.map Prod.snd).foldl max acc := by
    intro l
    induction l with
    | nil => intro acc; rfl
    | cons p rest ih =>
      intro acc
      simp only [hr] at ih ⊢
      simp [List.foldl_cons, ih]
  exact hfold ctx.optimizers 0

/-- C2 witness: the general law applied at the concrete example context
with counts 3 and 7 and offset 10. -/
theorem global_step_correct_witness :
    global_step c2_ctx_a
      = (c2_ctx_a.optimizers.map Prod.snd).foldl max 0 + c2_ctx_a.ctx_global_step :=
  global_step_correct.1 c2_ctx_a (by decide)

/-- C4: whenever the checkpoint unit fires, the write trace of save ends
with the single descriptor write, every principal weight file for the
step is written strictly before it, and every weight path the descriptor
snapshot references was already written at that point — the snapshot
never points at a file not yet on disk. -/
theorem checkpoint_write_order (ctx : Context)
    (hfire : global_step ctx % ctx.experiment.checkpoint_cycle = 0) :
    (save ctx).2.getLast? = some (FileWrite.descriptor
        (join_path ctx.experiment.checkpoint_path (checkpoint_file_name (global_step ctx)))
        (ctx.experiment.principals.map (fun p =>
          join_path ctx.experiment.checkpoint_path (weight_file_name (global_step ctx) p.1))))
    ∧ (∀ p ∈ ctx.experiment.principals,
        FileWrite.weights (join_path ctx.experiment.checkpoint_path
          (weight_file_name (global_step ctx) p.1)) ∈ (save ctx).2.dropLast)
    ∧ (∀ (dpath : Str) (refs : List Str),
        (save ctx).2.getLast? = some (FileWrite.descriptor dpath refs) →
        ∀ r ∈ refs, FileWrite.weights r ∈ (save ctx).2.dropLast) := by
  have hgate : (global_step ctx % ctx.experiment.checkpoint_cycle != 0) = false := by
    simp [hfire]
  have hsave : (save ctx).2
      = (ctx.experiment.principals.map (fun p => FileWrite.weights
          (join_path ctx.experiment.checkpoint_path
            (weight_file_name (global_step ctx) p.1))))
        ++ [FileWrite.descriptor
            (join_path ctx.experiment.checkpoint_path
              (checkpoint_file_name (global_step ctx)))
            ((ctx.experiment.principals.map (fun p => (p.1,
              some (join_path ctx.experiment.checkpoint_path
                (weight_file_name (global_step ctx) p.1))))).filterMap Prod.snd)] := by
    simp only [save, hgate, Bool.false_eq_true, if_false, if_true]
  have hrefs : (ctx.experiment.principals.map (fun p => (p.1,
        some (join_path ctx.experiment.checkpoint_path
          (weight_file_name (global_step ctx) p.1))))).filterMap Prod.snd
      = ctx.experiment.principals.map (fun p =>
          join_path ctx.experiment.checkpoint_path
            (weight_file_name (global_step ctx) p.1)) := by
    induction ctx.experiment.principals with
    | nil => rfl
    | cons q rest ih => simp [List.filterMap_cons, List.map_cons, ih]
  have hlast : (save ctx).2.getLast? = some (FileWrite.descriptor
      (join_path ctx.experiment.checkpoint_path (checkpoint_file_name (global_step ctx)))
      (ctx.experiment.principals.map (fun p =>
        join_path ctx.experiment.checkpoint_path (weight_file_name (global_step ctx) p.1)))) := by
    rw [hsave, hrefs, List.getLast?_concat]
  have hdrop : (save ctx).2.dropLast
      = ctx.experiment.principals.map (fun p => FileWrite.weights
          (join_path ctx.experiment.checkpoint_path
            (weight_file_name (global_step ctx) p.1))) := by
    rw [hsave]
    exact List.dropLast_concat
  refine ⟨hlast, ?_, ?_⟩
  · intro p hp
    rw [hdrop]
    exact List.mem_map_of_mem _ hp
  · intro dpath refs hd r hr
    rw [hlast] at hd
    have hrefs2 : refs = ctx.experiment.principals.map (fun p =>
        join_path ctx.experiment.checkpoint_path
          (weight_file_name (global_step ctx) p.1)) := by
      cases hd
      rfl
    rw [hdrop]
    rw [hrefs2] at hr
    rcases List.mem_map.mp hr with ⟨p, hp, rfl⟩
    exact List.mem_map_of_mem _ hp

/-- A firing variant of the concrete context (global step 20, checkpoint
cycle 2). -/
def c4_ctx : Context := { ctx0 with ctx_global_step := 11 }

/-- C4 witness: at the concrete firing context, the weight file of the
principal model appears among the writes before the final descriptor
write. -/
theorem checkpoint_write_order_witness :
    FileWrite.weights (join_path c4_ctx.experiment.checkpoint_path
        (weight_file_name (global_step c4_ctx) "gen".toList))
      ∈ (save c4_ctx).2.dropLast := by
  have h := checkpoint_write_order c4_ctx (by decide)
  exact h.2.1 ("gen".toList, none) (by decide)

/-- C10: the base offset added by global_step is the global_step entry of
the session context: save never changes it (nor the optimizer counters or
the strategy), so the reported global step is identical before and after
any save; when the checkpoint fires, save stores the computed step only
in the descriptor entry; and load_experiment initializes the context
entry to the (defaulted) descriptor value. -/
theorem global_step_offset_stable :
    (∀ ctx : Context,
      (save ctx).1.ctx_global_step = ctx.ctx_global_step
      ∧ (save ctx).1.optimizers = ctx.optimizers
      ∧ (save ctx).1.strategy = ctx.strategy
      ∧ global_step (save ctx).1 = global_step ctx
      ∧ (global_step ctx % ctx.experiment.checkpoint_cycle = 0 →
          (save ctx).1.experiment.exp_global_step = global_step ctx))
    ∧ (∀ (is_file : Bool) (path : Str) (d : Descriptor) (res : SessionInit),
        load_experiment is_file path d = Except.ok res →
        res.ctx_global_step = d.global_step_field.getD 0) := by
  constructor
  · intro ctx
    by_cases hg : global_step ctx % ctx.experiment.checkpoint_cycle = 0
    · have hgate : (global_step ctx % ctx.experiment.checkpoint_cycle != 0) = false := by
        simp [hg]
      have hsplit : (save ctx).1 = { ctx with experiment :=
          { ctx.experiment with
              exp_global_step := global_step ctx
              principals := ctx.experiment.principals.map (fun p => (p.1,
                some (join_path ctx.experiment.checkpoint_path
                  (weight_file_name (global_step ctx) p.1))))
              opt_snapshots := ctx.optimizers } } := by
        simp only [save, hgate, Bool.false_eq_true, if_false]
      rw [hsplit]
      exact ⟨rfl, rfl, rfl, rfl, fun _ => rfl⟩
    · have hgate : (global_step ctx % ctx.experiment.checkpoint_cycle != 0) = true := by
        simpa using hg
      refine ⟨?_, ?_, ?_, ?_, fun hc => absurd hc hg⟩ <;>
        simp only [save, hgate, if_true]
  · intro is_file path d res hres
    cases is_file with
    | false => simp [load_experiment] at hres
    | true =>
      cases hn : d.name_field with
      | none => simp [load_experiment, hn] at hres
      | some nm =>
        cases hs : py_truthy_str d.summary_path with
        | false => simp [load_experiment, hn, hs] at hres
        | true =>
          cases hc : py_truthy_str d.checkpoint_path with
          | false => simp [load_experiment, hn, hs, hc] at hres
          | true =>
            simp [load_experiment, hn, hs, hc] at hres
            rw [← hres]

/-- C10 witness: at the concrete firing context, the context offset is
unchanged by save while the descriptor entry becomes the computed step;
and a concrete load initializes the offset from the descriptor. -/
theorem global_step_offset_stable_witness :
    (save c4_ctx).1.ctx_global_step = c4_ctx.ctx_global_step
    ∧ (save c4_ctx).1.experiment.exp_global_step = global_step c4_ctx
    ∧ ({ ename := "x".toList, summary_path := "/s".toList,
          checkpoint_path := "/ck".toList, exp_global_step := 7,
          ctx_global_step := 7 : SessionInit }).ctx_global_step
        = (some 7 : Option Nat).getD 0 := by
  have h := global_step_offset_stable
  refine ⟨(h.1 c4_ctx).1, (h.1 c4_ctx).2.2.2.2 (by decide), ?_⟩
  exact h.2 true "exp.yaml".toList
    { name_field := some "x".toList, summary_path := some "/s".toList,
      checkpoint_path := some "/ck".toList, global_step_field := some 7 }
    _ (by decide)

/-- C5: the cyclic gate is the pure function fires(cycle, step) =
(step mod cycle == 0); an optimizer entry advances its dataset during
train exactly when it fires, a validator entry advances its dataset
during validate exactly when it fires, save writes files exactly when
the checkpoint cycle fires, and for cycle 5 the gate is open at
0, 5, 10, 15, 20 and shut at 1, 2, 3, 4, 6, 7, 8, 9, 11, 12, 13, 14. -/
theorem scheduler_gating :
    (∀ c s : Nat, fires c s = true ↔ s % c = 0)
    ∧ (∀ (mf : ModelFns) (bo : Str → Nat → DistBatch) (ctx : Context)
        (n : Str) (cfg : OptCfg),
        ctx.experiment.optimizer_cfgs = [(n, cfg)] →
        lookupD (train mf bo ctx).datasets_consumed cfg.dataset_name 0
          = lookupD ctx.datasets_consumed cfg.dataset_name 0
            + (if fires cfg.cycle (global_step ctx) then 1 else 0))
    ∧ (∀ (mf : ModelFns) (bo : Str → Nat → DistBatch) (pf sf : Tensor → Tensor → ℚ)
        (ctx : Context) (v : ValCfg),
        ctx.experiment.validator_cfgs = [v] →
        lookupD (validate mf bo pf sf ctx).datasets_consumed v.dataset_name 0
          = lookupD ctx.datasets_consumed v.dataset_name 0
            + (if fires v.cycle (global_step ctx) then 1 else 0))
    ∧ (∀ ctx : Context,
        (save ctx).2 ≠ [] ↔ fires ctx.experiment.checkpoint_cycle (global_step ctx) = true)
    ∧ ([0, 5, 10, 15, 20].all (fun s => fires 5 s) = true)
    ∧ ([1, 2, 3, 4, 6, 7, 8, 9, 11, 12, 13, 14].all (fun s => !(fires 5 s)) = true) := by
  refine ⟨?_, ?_, ?_, ?_, by decide, by decide⟩
  · intro c s
    simp [fires]
  · intro mf bo ctx n cfg hcfg
    unfold train
    rw [hcfg]
    simp only [List.foldl_cons, List.foldl_nil]
    by_cases hf : global_step ctx % cfg.cycle = 0
    · simp [train_unit, hf, fires, next_batch, run_training_adapter, lookupD_setA_self]
    · simp [train_unit, hf, fires]
  · intro mf bo pf sf ctx v hcfg
    unfold validate
    rw [hcfg]
    simp only [List.foldl_cons, List.foldl_nil]
    by_cases hf : global_step ctx % v.cycle = 0
    · simp [validate_unit, hf, fires, next_batch, lookupD_setA_self]
    · simp [validate_unit, hf, fires]
  · intro ctx
    by_cases hf : global_step ctx % ctx.experiment.checkpoint_cycle = 0
    · have hgate : (global_step ctx % ctx.experiment.checkpoint_cycle != 0) = false := by
        simp [hf]
      simp [save, hgate, fires, hf]
    · have hgate : (global_step ctx % ctx.experiment.checkpoint_cycle != 0) = true := by
        simpa using hf
      simp [save, hgate, fires, hf]

/-- A concrete batch source for witnesses: every dataset yields the same
two-replica batch at every position. -/
def bo0 : Str → Nat → DistBatch := fun _ _ => [[[1], [2]], [[3], [4]]]

/-- C5 witness: the gating laws applied at concrete inputs — the
optimizer of ctx0 (cycle 1, always firing) advances its dataset by one
batch during train, and save at the firing context writes a nonempty
trace. -/
theorem scheduler_gating_witness :
    lookupD (train mf0 bo0 ctx0).datasets_consumed "d".toList 0
      = lookupD ctx0.datasets_consumed "d".toList 0
        + (if fires cfg0.cycle (global_step ctx0) then 1 else 0)
    ∧ (save c4_ctx).2 ≠ [] := by
  constructor
  · exact scheduler_gating.2.1 mf0 bo0 ctx0 "a".toList cfg0 (by decide)
  · exact (scheduler_gating.2.2.2.1 c4_ctx).mpr (by decide)

theorem validate_unit_frame (mf : ModelFns) (bo : Str → Nat → DistBatch)
    (pf sf : Tensor → Tensor → ℚ) (step : Nat) (c : Context) (v : ValCfg) :
    (validate_unit mf bo pf sf step c v).ext_vars = c.ext_vars
    ∧ (validate_unit mf bo pf sf step c v).optimizers = c.optimizers
    ∧ (validate_unit mf bo pf sf step c v).experiment = c.experiment
    ∧ (validate_unit mf bo pf sf step c v).strategy = c.strategy
    ∧ (validate_unit mf bo pf sf step c v).ctx_global_step = c.ctx_global_step := by
  by_cases hf : step % v.cycle = 0 <;> simp [validate_unit, next_batch, hf]

theorem validate_frame (mf : ModelFns) (bo : Str → Nat → DistBatch)
    (pf sf : Tensor → Tensor → ℚ) (ctx : Context) :
    (validate mf bo pf sf ctx).ext_vars = ctx.ext_vars
    ∧ (validate mf bo pf sf ctx).optimizers = ctx.optimizers
    ∧ (validate mf bo pf sf ctx).experiment = ctx.experiment := by
  have hfold : ∀ (l : List ValCfg) (c : Context) (step : Nat),
      (l.foldl (validate_unit mf bo pf sf step) c).ext_vars = c.ext_vars
      ∧ (l.foldl (validate_unit mf bo pf sf step) c).optimizers = c.optimizers
      ∧ (l.foldl (validate_unit mf bo pf sf step) c).experiment = c.experiment := by
    intro l
    induction l with
    | nil => intro c step; exact ⟨rfl, rfl, rfl⟩
    | cons v rest ih =>
      intro c step
      rcases ih (validate_unit mf bo pf sf step c v) step with ⟨h1, h2, h3⟩
      rcases validate_unit_frame mf bo pf sf step c v with ⟨g1, g2, g3, _, _⟩
      exact ⟨by rw [List.foldl_cons, h1, g1], by rw [List.foldl_cons, h2, g2],
        by rw [List.foldl_cons, h3, g3]⟩
  exact hfold ctx.experiment.validator_cfgs ctx (global_step ctx)

/-- C6 counterexample: under the single-replica strategy the validation
adapter returns the bare (output, reference) pair, not a per-replica
collection — its first component has no values attribute and differs from
the one-element per-replica form — while under the mirrored strategy it
is a per-replica collection; so the output shape does depend on the
replica form and the consumer (validate) must branch on it, against the
claim that no such special-casing is ever needed. -/
theorem validation_adapter_claim_counterexample :
    has_values_attr
        (validate_one_step_in_graph mf0 StrategyE.oneDevice "g".toList [0] 1 [[[1], [2]]]).1
      = false
    ∧ (validate_one_step_in_graph mf0 StrategyE.oneDevice "g".toList [0] 1 [[[1], [2]]]).1
        ≠ RunResult.perReplica [mf0.forward "g".toList (permute_inputs [0] [[1], [2]])]
    ∧ has_values_attr
        (validate_one_step_in_graph mf0 (StrategyE.mirrored 2) "g".toList [0] 1
          [[[1], [2]], [[3], [4]]]).1
      = true := by
  exact ⟨by decide, by decide, by decide⟩

/-- C6 (amended: under the mirrored strategy the adapter returns one
(model output, reference) pair per replica in a per-replica collection,
never aggregated; under the single-replica strategy it returns the bare
pair itself, not wrapped in a collection, and the consumer branches on
the presence of the values attribute — in both cases no model parameter
and no optimizer counter is mutated). -/
theorem validation_adapter_output (mf : ModelFns) (model : Str) (idx : List Nat) (hd : Nat) :
    (∀ (m : Nat) (data : DistBatch),
      validate_one_step_in_graph mf (StrategyE.mirrored m) model idx hd data
        = (RunResult.perReplica (data.map (fun b => (validate_one_step mf model idx hd b).1)),
            RunResult.perReplica (data.map (fun b => (validate_one_step mf model idx hd b).2))))
    ∧ (∀ data : DistBatch,
      validate_one_step_in_graph mf StrategyE.oneDevice model idx hd data
        = (RunResult.single (validate_one_step mf model idx hd (data.getD 0 [])).1,
            RunResult.single (validate_one_step mf model idx hd (data.getD 0 [])).2))
    ∧ (∀ (bo : Str → Nat → DistBatch) (pf sf : Tensor → Tensor → ℚ) (ctx : Context),
        (validate mf bo pf sf ctx).ext_vars = ctx.ext_vars
        ∧ (validate mf bo pf sf ctx).optimizers = ctx.optimizers) := by
  refine ⟨?_, ?_, ?_⟩
  · intro m data
    simp [validate_one_step_in_graph, run_v2, List.map_map, Function.comp]
  · intro data
    simp [validate_one_step_in_graph, run_v2]
  · intro bo pf sf ctx
    rcases validate_frame mf bo pf sf ctx with ⟨h1, h2, _⟩
    exact ⟨h1, h2⟩

/-- C6 witness: the amended description applied at a concrete mirrored
strategy and batch, and at a concrete validate call that leaves the
trainable variables untouched. -/
theorem validation_adapter_output_witness :
    validate_one_step_in_graph mf0 (StrategyE.mirrored 2) "g".toList [0] 1
        [[[1], [2]], [[3], [4]]]
      = (RunResult.perReplica
          ([[[1], [2]], [[3], [4]]].map
            (fun b => (validate_one_step mf0 "g".toList [0] 1 b).1)),
          RunResult.perReplica
          ([[[1], [2]], [[3], [4]]].map
            (fun b => (validate_one_step mf0 "g".toList [0] 1 b).2)))
    ∧ (validate mf0 bo0 (fun _ _ => 0) (fun _ _ => 0) ctx0).ext_vars = ctx0.ext_vars := by
  constructor
  · exact (validation_adapter_output mf0 "g".toList [0] 1).1 2 [[[1], [2]], [[3], [4]]]
  · exact ((validation_adapter_output mf0 "g".toList [0] 1).2.2 bo0
      (fun _ _ => 0) (fun _ _ => 0) ctx0).1

theorem build_models_unit_self (mf : ModelFns) (bo : Str → Nat → DistBatch)
    (c : Context) (p : Str × OptCfg) :
    lookupD (build_models_unit mf bo c p).optimizers p.1 0 = 1 := by
  simp [build_models_unit, next_batch, run_training_adapter,
    train_one_step_in_graph_iters, lookupD_setA_self]

theorem build_models_unit_other (mf : ModelFns) (bo : Str → Nat → DistBatch)
    (c : Context) (p : Str × OptCfg) (n : Str) (hn : n ≠ p.1) :
    lookupD (build_models_unit mf bo c p).optimizers n 0 = lookupD c.optimizers n 0 := by
  show lookupD (setA (setA c.optimizers p.1 0) p.1 _) n 0 = lookupD c.optimizers n 0
  rw [lookupD_setA_ne _ _ _ _ _ (fun hc => hn hc.symm),
    lookupD_setA_ne _ _ _ _ _ (fun hc => hn hc.symm)]

theorem build_models_unit_consumed (mf : ModelFns) (bo : Str → Nat → DistBatch)
    (c : Context) (p : Str × OptCfg) (d : Str) :
    lookupD (build_models_unit mf bo c p).datasets_consumed d 0
      = lookupD c.datasets_consumed d 0 + (if p.2.dataset_name = d then 1 else 0) := by
  by_cases hd : p.2.dataset_name = d
  · subst hd
    simp [build_models_unit, next_batch, run_training_adapter, lookupD_setA_self]
  · simp only [build_models_unit, next_batch, run_training_adapter]
    rw [lookupD_setA_ne _ _ _ _ _ hd]
    simp [hd]

theorem build_models_unit_frame (mf : ModelFns) (bo : Str → Nat → DistBatch)
    (c : Context) (p : Str × OptCfg) :
    (build_models_unit mf bo c p).experiment = c.experiment
    ∧ (build_models_unit mf bo c p).strategy = c.strategy
    ∧ (build_models_unit mf bo c p).datasets_built = c.datasets_built
    ∧ (build_models_unit mf bo c p).ctx_global_step = c.ctx_global_step := by
  exact ⟨rfl, rfl, rfl, rfl⟩

theorem build_fold_other (mf : ModelFns) (bo : Str → Nat → DistBatch)
    (l : List (Str × OptCfg)) :
    ∀ (c : Context) (n : Str), n ∉ l.map Prod.fst →
      lookupD (l.foldl (build_models_unit mf bo) c).optimizers n 0
        = lookupD c.optimizers n 0 := by
  induction l with
  | nil => intro c n _; rfl
  | cons q rest ih =>
    intro c n hn
    rw [List.map_cons] at hn
    have hq : n ≠ q.1 := by
      intro hc
      exact hn (hc ▸ List.mem_cons_self _ _)
    have hr : n ∉ rest.map Prod.fst := by
      intro hc
      exact hn (List.mem_cons_of_mem _ hc)
    rw [List.foldl_cons, ih _ n hr, build_models_unit_other mf bo c q n hq]

theorem build_fold_one (mf : ModelFns) (bo : Str → Nat → DistBatch)
    (l : List (Str × OptCfg)) :
    ∀ (c : Context) (n : Str), n ∈ l.map Prod.fst →
      lookupD (l.foldl (build_models_unit mf bo) c).optimizers n 0 = 1 := by
  induction l with
  | nil => intro c n hn; simp at hn
  | cons q rest ih =>
    intro c n hn
    by_cases hmem : n ∈ rest.map Prod.fst
    · rw [List.foldl_cons]
      exact ih _ n hmem
    · have hn2 : n ∈ q.1 :: rest.map Prod.fst := by
        rw [List.map_cons] at hn
        exact hn
      have hq : n = q.1 := by
        rcases List.mem_cons.mp hn2 with h | h
        · exact h
        · exact absurd h hmem
      rw [List.foldl_cons, build_fold_other mf bo rest _ n hmem, hq]
      exact build_models_unit_self mf bo c q

theorem build_fold_consumed (mf : ModelFns) (bo : Str → Nat → DistBatch)
    (l : List (Str × OptCfg)) :
    ∀ (c : Context) (d : Str),
      lookupD (l.foldl (build_models_unit mf bo) c).datasets_consumed d 0
        = lookupD c.datasets_consumed d 0
          + (l.filter (fun p => p.2.dataset_name == d)).length := by
  induction l with
  | nil => intro c d; simp
  | cons q rest ih =>
    intro c d
    rw [List.foldl_cons, ih _ d, build_models_unit_consumed mf bo c q d]
    by_cases hd : q.2.dataset_name = d
    · simp [List.filter_cons, hd]
      omega
    · simp [List.filter_cons, hd]

theorem build_fold_frame (mf : ModelFns) (bo : Str → Nat → DistBatch)
    (l : List (Str × OptCfg)) :
    ∀ c : Context,
      (l.foldl (build_models_unit mf bo) c).experiment = c.experiment
      ∧ (l.foldl (build_models_unit mf bo) c).strategy = c.strategy
      ∧ (l.foldl (build_models_unit mf bo) c).ctx_global_step = c.ctx_global_step := by
  induction l with
  | nil => intro c; exact ⟨rfl, rfl, rfl⟩
  | cons q rest ih =>
    intro c
    rcases ih (build_models_unit mf bo c q) with ⟨h1, h2, h3⟩
    rcases build_models_unit_frame mf bo c q with ⟨g1, g2, _, g4⟩
    exact ⟨by rw [List.foldl_cons, h1, g1], by rw [List.foldl_cons, h2, g2],
      by rw [List.foldl_cons, h3, g4]⟩

/-- C9: when build_models succeeds, its invocation of each freshly built
training adapter on a real batch has already happened: every optimizer
listed in the descriptor ends with iteration counter exactly 1 (one real
update applied), each bound dataset iterator has yielded one batch per
optimizer bound to it, and nothing else of the session context changed —
all before the first train/validate/save iteration runs. -/
theorem build_models_effect (mf : ModelFns) (bo : Str → Nat → DistBatch)
    (ctx ctx2 : Context) (h : ctx.datasets_built = true)
    (heq : build_models mf bo ctx = Except.ok ctx2) :
    (∀ p ∈ ctx.experiment.optimizer_cfgs, lookupD ctx2.optimizers p.1 0 = 1)
    ∧ (∀ d : Str, lookupD ctx2.datasets_consumed d 0
        = lookupD ctx.datasets_consumed d 0
          + (ctx.experiment.optimizer_cfgs.filter
              (fun p => p.2.dataset_name == d)).length)
    ∧ ctx2.experiment = ctx.experiment
    ∧ ctx2.ctx_global_step = ctx.ctx_global_step := by
  simp only [build_models, h, Bool.not_true, Bool.false_eq_true, if_false,
    Except.ok.injEq] at heq
  subst heq
  refine ⟨?_, ?_, (build_fold_frame mf bo _ _).1, (build_fold_frame mf bo _ _).2.2⟩
  · intro p hp
    exact build_fold_one mf bo _ _ p.1 (List.mem_map_of_mem Prod.fst hp)
  · intro d
    exact build_fold_consumed mf bo _ _ d

/-- The context produced by build_models at the concrete witness
inputs. -/
def c9_result : Context :=
  ctx0.experiment.optimizer_cfgs.foldl (build_models_unit mf0 bo0)
    { ctx0 with optimizers := [] }

/-- C9 witness: at the concrete context, build_models succeeds, the
single optimizer ends with counter 1, and its dataset has yielded one
batch. -/
theorem build_models_effect_witness :
    build_models mf0 bo0 ctx0 = Except.ok c9_result
    ∧ lookupD c9_result.optimizers "a".toList 0 = 1
    ∧ lookupD c9_result.datasets_consumed "d".toList 0
        = lookupD ctx0.datasets_consumed "d".toList 0 + 1 := by
  have heq : build_models mf0 bo0 ctx0 = Except.ok c9_result := rfl
  have h := build_models_effect mf0 bo0 ctx0 c9_result rfl heq
  refine ⟨heq, ?_, ?_⟩
  · exact h.1 ("a".toList, cfg0) (by decide)
  · exact (h.2.1 "d".toList).trans (by decide)
